import Mathlib

set_option maxRecDepth 8000

/-!
Verification of the income-statement pipeline of `financial_analyzer.py`
(class `FinancialDataProcessor`): keyword classification of tag names,
duplicate / conflict resolution of extracted facts, derived line items,
profitability ratios, statement construction, the pandas outer-join merge
of several companies' statements, and the highlight pass of the comparison
report.

Modelling conventions:
- Python floats are modelled as exact rationals (`ℚ`); the literal `0.3`
  becomes `3 / 10`.
- Python dicts keyed by strings are insertion-ordered association lists;
  `d[k] = v` keeps the position of an existing key and appends a new one,
  as CPython dicts do.
- pandas DataFrames are a record of ordered column names (the `구분` key
  column kept separate) plus rows, each row being its `구분` key and its
  cells per column.
- Rendered strings are kept abstract but carry the rendered value: a
  `_format_amount(v)` display cell and a `f"{v:.2f}%"` ratio cell are
  distinct constructors holding `v`, never equal to the `"-"` fill.
-/

/-- ASCII lower-casing of one character; Python `str.lower()` agrees with this
on the ASCII range, which covers every keyword of the classification table. -/
def lowerChar (c : Char) : Char :=
  if 65 ≤ c.toNat ∧ c.toNat ≤ 90 then Char.ofNat (c.toNat + 32) else c

/-- Lower-cased string, modelling `tag.name.lower()` (source line 126). -/
def lowerStr (s : String) : String := ⟨s.data.map lowerChar⟩

/-- Python's substring test `k in t` on strings: `k` occurs contiguously
inside `t`. -/
def substrB (k t : String) : Bool := decide (k.data <:+: t.data)

/-- The ordered keyword table `INCOME_STATEMENT_MAP` (source lines 27-57).
CPython dicts preserve insertion order, and the classification loop iterates
`self.INCOME_STATEMENT_MAP.items()` in exactly this order. -/
def INCOME_STATEMENT_MAP : List (String × String) :=
  [("sales", "매출액"),
   ("revenue", "매출액"),
   ("costofgoodssold", "매출원가"),
   ("cogs", "매출원가"),
   ("costofrevenue", "매출원가"),
   ("operatingexpenses", "판관비"),
   ("sellingexpenses", "판매비"),
   ("administrativeexpenses", "관리비"),
   ("employeebenefits", "인건비"),
   ("wages", "인건비"),
   ("depreciation", "감가상각비"),
   ("grossprofit", "매출총이익"),
   ("operatingincome", "영업이익"),
   ("operatingprofit", "영업이익"),
   ("ebit", "영업이익"),
   ("netincome", "당기순이익"),
   ("netprofit", "당기순이익"),
   ("profitloss", "당기순이익"),
   ("nonoperatingincome", "영업외수익"),
   ("nonoperatingexpense", "영업외비용"),
   ("financialcosts", "금융비용"),
   ("interestexpense", "이자비용")]

/-- The classification loop of `_extract_financial_items` (source lines
129-132): scan the table in order, return the mapped name of the first
keyword contained in the (already lower-cased) tag name, `break` ends the
scan, no match leaves `standard_item` as `None`. -/
def firstMatch (t : String) : List (String × String) → Option String
  | [] => none
  | (k, v) :: rest => if substrB k t then some v else firstMatch t rest

/-- Classification of one raw tag name to a canonical item name. -/
def classify (tagName : String) : Option String :=
  firstMatch (lowerStr tagName) INCOME_STATEMENT_MAP

/-- First-occurrence lookup in an association list; models Python `d[k]` /
`d.get(k)` (keys are unique in an actual dict, so "first" is harmless). -/
def aget {α : Type} (m : List (String × α)) (k : String) : Option α :=
  match m with
  | [] => none
  | (k', v) :: rest => if k' = k then some v else aget rest k

/-- Models `d.get(k, dflt)`. -/
def agetD (m : List (String × ℚ)) (k : String) (dflt : ℚ) : ℚ :=
  (aget m k).getD dflt

/-- Models the containment test `k in d` on a dict. -/
def amem (m : List (String × ℚ)) (k : String) : Bool :=
  (aget m k).isSome

/-- Models `d[k] = v` on a dict: an existing key keeps its position and gets
the new value, a new key is appended at the end. -/
def aset {α : Type} (m : List (String × α)) (k : String) (v : α) :
    List (String × α) :=
  match m with
  | [] => [(k, v)]
  | (k', v') :: rest => if k' = k then (k, v) :: rest else (k', v') :: aset rest k v

/-- State of the extraction loop of `_extract_financial_items`: the `items`
dict and the `seen` set of `(standard_item, value)` pairs (the set is modelled
as the list of its elements in insertion order). -/
structure ExtractState where
  items : List (String × ℚ)
  seen : List (String × ℚ)
deriving DecidableEq

/-- One already-classified, already-parsed fact pushed through the
deduplication and conflict-resolution part of the loop (source lines 137-148):
an exact `(item, value)` repeat is skipped, otherwise the item keeps the value
of greater absolute magnitude (strictly greater replaces). -/
def extractStep (st : ExtractState) (f : String × ℚ) : ExtractState :=
  if f ∈ st.seen then st
  else
    let seen' := st.seen ++ [f]
    match aget st.items f.1 with
    | some old => if |f.2| > |old| then ⟨aset st.items f.1 f.2, seen'⟩ else ⟨st.items, seen'⟩
    | none => ⟨aset st.items f.1 f.2, seen'⟩

/-- The `items` dict produced by folding the extraction loop over a sequence
of classified facts, starting from empty `items` and `seen`. -/
def extractFacts (fs : List (String × ℚ)) : List (String × ℚ) :=
  (fs.foldl extractStep ⟨[], []⟩).items

/-- The `calculated` dict built by `_calculate_derived_items` (source lines
200-216). Branch 1 fires whenever Revenue and COGS are both present — it does
not test whether GrossProfit is already present. Branch 2 (the 30% heuristic)
fires when Revenue is present and GrossProfit absent. The SG&A rule fires
whenever SellingExpense and AdminExpense are both present. -/
def calculate_derived_items (data : List (String × ℚ)) : List (String × ℚ) :=
  let c :=
    if amem data "매출액" && amem data "매출원가" then
      [("매출총이익", agetD data "매출액" 0 - agetD data "매출원가" 0)]
    else if amem data "매출액" && !amem data "매출총이익" then
      let g := agetD data "매출액" 0 * (3 / 10)
      [("매출총이익", g), ("매출원가", agetD data "매출액" 0 - g)]
    else []
  if amem data "판매비" && amem data "관리비" then
    c ++ [("판관비", agetD data "판매비" 0 + agetD data "관리비" 0)]
  else c

/-- Models `data.update(calculated)` (source line 175). -/
def updateData (data calcd : List (String × ℚ)) : List (String × ℚ) :=
  calcd.foldl (fun d kv => aset d kv.1 kv.2) data

/-- The item map after `_create_income_statement` has merged the derived
items into `data` (source lines 174-175). -/
def derive (data : List (String × ℚ)) : List (String × ℚ) :=
  updateData data (calculate_derived_items data)

/-- The ratio dict built by `_calculate_ratios` (source lines 218-240), keys
in insertion order; empty unless `data.get('매출액', 0) > 0`. -/
def calculate_ratios (data : List (String × ℚ)) : List (String × ℚ) :=
  let rev := agetD data "매출액" 0
  if 0 < rev then
    (if amem data "영업이익" then
      [("영업이익률(%)", agetD data "영업이익" 0 / rev * 100)] else []) ++
    (if amem data "당기순이익" then
      [("순이익률(%)", agetD data "당기순이익" 0 / rev * 100)] else []) ++
    (if amem data "매출원가" then
      [("매출원가율(%)", agetD data "매출원가" 0 / rev * 100)] else []) ++
    (if amem data "판관비" then
      [("판관비율(%)", agetD data "판관비" 0 / rev * 100)] else [])
  else []

/-- One DataFrame cell. Rendered strings are abstract constructors carrying
the rendered value: `fmtAmount v` stands for the `_format_amount(v)` display
text, `fmtPercent v` for `f"{v:.2f}%"`, `num v` for the raw float, `na` for a
pandas NaN created by an outer join, and `dash` for the `"-"` fill. None of
the rendered texts ever equals `"-"`, so `dash` is distinguishable. -/
inductive Cell where
  | na : Cell
  | dash : Cell
  | fmtAmount : ℚ → Cell
  | fmtPercent : ℚ → Cell
  | num : ℚ → Cell
deriving DecidableEq

/-- A DataFrame as this pipeline builds them: rows keyed by the `구분` column
(kept separate from `cols`), the remaining column names in order, and each
row's cells per column name. -/
structure DF where
  cols : List String
  rows : List (String × List (String × Cell))
deriving DecidableEq

/-- The fixed display order `standard_items` (source lines 156-171). -/
def standard_items : List String :=
  ["매출액", "매출원가", "매출총이익", "판매비", "관리비", "판관비", "인건비",
   "감가상각비", "영업이익", "영업외수익", "영업외비용", "금융비용", "이자비용",
   "당기순이익"]

/-- `_create_income_statement` (source lines 152-198): update `data` with the
derived items, keep the standard items whose value is non-zero, in the fixed
order, each rendered as a display cell plus a `_원시값` raw cell, then append
one row per computed ratio. -/
def create_income_statement (data0 : List (String × ℚ)) (company : String) : DF :=
  let data := derive data0
  let lineRows := standard_items.filterMap fun it =>
    let v := agetD data it 0
    if v ≠ 0 then
      some (it, [(company, Cell.fmtAmount v), (company ++ "_원시값", Cell.num v)])
    else none
  let ratioRows := (calculate_ratios data).map fun rv =>
    (rv.1, [(company, Cell.fmtPercent rv.2), (company ++ "_원시값", Cell.num rv.2)])
  { cols := [company, company ++ "_원시값"], rows := lineRows ++ ratioRows }

/-- Code-point comparison of character lists: exactly how Python orders `str`
values and how pandas `safe_sort` orders an object index of strings. -/
def strLtL : List Char → List Char → Bool
  | [], [] => false
  | [], _ :: _ => true
  | _ :: _, [] => false
  | a :: as, b :: bs =>
    if a.toNat < b.toNat then true
    else if b.toNat < a.toNat then false
    else strLtL as bs

/-- Insertion into a code-point-sorted list of strings. -/
def insStr (x : String) : List String → List String
  | [] => [x]
  | y :: ys => if strLtL y.data x.data then y :: insStr x ys else x :: y :: ys

/-- Insertion sort of strings by code point. -/
def sortStr (l : List String) : List String := l.foldr insStr []

/-- Models `col.endswith('_원시값')` (source line 263). -/
def isRawCol (c : String) : Bool := decide ("_원시값".data <:+ c.data)

/-- Row keys of `merged.set_index('구분').join(company_data, how='outer')`
(source line 268). A pandas outer join keeps the left index when the two
indexes are element-wise equal or a side is empty; otherwise it takes the
union of the keys and sorts it by code point (`Index.union` with its default
sort, the behaviour documented for outer merges; statement indexes are not
monotonic, so no monotonic fast path applies). -/
def joinOuterKeys (L R : List String) : List String :=
  if R = [] then L
  else if L = [] then R
  else if L = R then L
  else sortStr (L ++ R.filter (fun k => !(L.contains k)))

/-- The pandas Series `df.set_index('구분')[company_col]` (source line 267). -/
def seriesOf (df : DF) (ccol : String) : List (String × Cell) :=
  df.rows.map fun r => (r.1, (aget r.2 ccol).getD Cell.na)

/-- One outer join of a single display column onto the accumulated frame
(source line 268): rows missing on either side get NaN cells, the joined
column is appended after the existing columns. -/
def joinSeries (m : DF) (ccol : String) (s : List (String × Cell)) : DF :=
  let keys := joinOuterKeys (m.rows.map Prod.fst) (s.map Prod.fst)
  { cols := m.cols ++ [ccol]
    rows := keys.map fun k =>
      let leftCells :=
        match aget m.rows k with
        | some cs => cs
        | none => m.cols.map fun c => (c, Cell.na)
      (k, leftCells ++ [(ccol, (aget s k).getD Cell.na)]) }

/-- Action of `fillna("-")` on one cell: NaN becomes the `"-"` sentinel. -/
def fillCell (c : Cell) : Cell := if c = Cell.na then Cell.dash else c

/-- Models `merged.fillna("-")` (source line 271). -/
def fillnaDF (m : DF) : DF :=
  { cols := m.cols
    rows := m.rows.map fun r => (r.1, r.2.map fun cv => (cv.1, fillCell cv.2)) }

/-- `merge_company_data` (source lines 253-273): start from the first frame,
join every non-`_원시값` column of each later frame (the `구분` key column is
represented separately, so only the raw-value filter of `company_cols`
remains), then fill missing cells with `"-"`. -/
def merge_company_data (dfs : List DF) : DF :=
  match dfs with
  | [] => ⟨[], []⟩
  | first :: rest =>
    let merged := rest.foldl
      (fun m df =>
        (df.cols.filter fun c => !(isRawCol c)).foldl
          (fun m2 ccol => joinSeries m2 ccol (seriesOf df ccol)) m)
      first
    fillnaDF merged

/-- Cells of one row in DataFrame column order: `row[1:]` in the source
(every column after `구분`, raw-value columns included). -/
def rowCells (m : DF) (r : String × List (String × Cell)) : List Cell :=
  m.cols.map fun c => (aget r.2 c).getD Cell.na

/-- The highlight pass of `create_comparison_report` (source lines 285-296):
keep the rows whose `구분` contains `이익률` or `비율` (the regex
`'이익률|비율'`), list each with its cells that are neither `"-"` nor NaN,
and drop a row whose value list is empty (`if values:`). -/
def highlight_pass (m : DF) : List (String × List Cell) :=
  ((m.rows.filter fun r => substrB "이익률" r.1 || substrB "비율" r.1).map
    fun r => (r.1, (rowCells m r).filter fun v => v != Cell.dash && v != Cell.na)).filter
    fun p => !(p.2.isEmpty)

/-- Cell of a merged frame at row key `k` and column `c`. -/
def cellAt (m : DF) (k c : String) : Cell :=
  ((aget m.rows k).bind fun cs => aget cs c).getD Cell.na

theorem aget_aset_self {α : Type} (m : List (String × α)) (k : String) (v : α) :
    aget (aset m k v) k = some v := by
  induction m with
  | nil => simp [aset, aget]
  | cons p rest ih =>
    obtain ⟨k', v'⟩ := p
    by_cases h : k' = k
    · simp [aset, h, aget]
    · simp [aset, h, aget, ih]

theorem aget_aset_ne {α : Type} (m : List (String × α)) {k k' : String} (v : α)
    (h : k' ≠ k) : aget (aset m k' v) k = aget m k := by
  induction m with
  | nil => simp [aset, aget, h]
  | cons p rest ih =>
    obtain ⟨k'', v''⟩ := p
    by_cases h2 : k'' = k'
    · simp [aset, h2, aget, h]
    · simp only [aset, h2, if_false, aget]
      by_cases h3 : k'' = k <;> simp [h3, ih]

theorem aget_append_of_none {α : Type} (m₁ m₂ : List (String × α)) (k : String)
    (h : aget m₁ k = none) : aget (m₁ ++ m₂) k = aget m₂ k := by
  induction m₁ with
  | nil => simp
  | cons p rest ih =>
    obtain ⟨k', v'⟩ := p
    by_cases h2 : k' = k
    · simp [aget, h2] at h
    · simp only [aget, h2, if_false] at h
      simpa [aget, h2] using ih h

theorem aget_append_of_some {α : Type} {m₁ : List (String × α)} {k : String} {v : α}
    (m₂ : List (String × α)) (h : aget m₁ k = some v) : aget (m₁ ++ m₂) k = some v := by
  induction m₁ with
  | nil => simp [aget] at h
  | cons p rest ih =>
    obtain ⟨k', v'⟩ := p
    by_cases h2 : k' = k
    · simp [aget, h2] at h ⊢; exact h
    · simp only [aget, h2, if_false] at h ⊢
      exact ih h

theorem aget_eq_none_of {α : Type} (m : List (String × α)) (k : String)
    (h : ∀ p ∈ m, p.1 ≠ k) : aget m k = none := by
  induction m with
  | nil => rfl
  | cons p rest ih =>
    obtain ⟨k', v'⟩ := p
    have h1 : k' ≠ k := h (k', v') (by simp)
    simp only [aget, h1, if_false]
    exact ih fun q hq => h q (by simp [hq])

theorem aget_isSome_iff {α : Type} (m : List (String × α)) (k : String) :
    (aget m k).isSome = true ↔ k ∈ m.map Prod.fst := by
  induction m with
  | nil => simp [aget]
  | cons p rest ih =>
    obtain ⟨k', v'⟩ := p
    by_cases h : k' = k
    · simp [aget, h]
    · simp [aget, h, ih, Ne.symm h]

theorem aget_eq_none_iff {α : Type} (m : List (String × α)) (k : String) :
    aget m k = none ↔ k ∉ m.map Prod.fst := by
  rw [← aget_isSome_iff]
  cases aget m k <;> simp

theorem firstMatch_eq_none_iff (t : String) (l : List (String × String)) :
    firstMatch t l = none ↔ ∀ p ∈ l, substrB p.1 t = false := by
  induction l with
  | nil => simp [firstMatch]
  | cons p rest ih =>
    obtain ⟨k, v⟩ := p
    by_cases h : substrB k t = true
    · simp only [firstMatch, h, if_true]
      constructor
      · intro hc; exact absurd hc (by simp)
      · intro hall
        have hk := hall (k, v) (by simp)
        rw [h] at hk
        exact absurd hk (by simp)
    · have h' : substrB k t = false := eq_false_of_ne_true h
      simp only [firstMatch, h', Bool.false_eq_true, if_false]
      rw [ih]
      constructor
      · intro hall p hp
        rcases List.mem_cons.mp hp with h1 | h1
        · rw [h1]; exact h'
        · exact hall p h1
      · intro hall p hp
        exact hall p (List.mem_cons_of_mem _ hp)

theorem firstMatch_eq_some_of (t : String) (l : List (String × String)) :
    ∀ (i : ℕ) (hi : i < l.length),
      substrB (l.get ⟨i, hi⟩).1 t = true →
      (l.take i).all (fun p => !(substrB p.1 t)) = true →
      firstMatch t l = some (l.get ⟨i, hi⟩).2 := by
  induction l with
  | nil => intro i hi; simp at hi
  | cons p rest ih =>
    intro i hi hm hb
    obtain ⟨k, v⟩ := p
    cases i with
    | zero =>
      have hm' : substrB k t = true := by simpa using hm
      simp [firstMatch, hm']
    | succ j =>
      simp only [List.take_succ_cons, List.all_cons, Bool.and_eq_true, Bool.not_eq_true'] at hb
      simp only [firstMatch, hb.1, if_false]
      exact ih j (by simpa using hi) (by simpa using hm) hb.2

theorem firstMatch_eq_some_elim (t : String) (l : List (String × String)) (v : String)
    (h : firstMatch t l = some v) :
    ∃ (i : ℕ) (hi : i < l.length),
      (l.get ⟨i, hi⟩).2 = v ∧ substrB (l.get ⟨i, hi⟩).1 t = true ∧
      (l.take i).all (fun p => !(substrB p.1 t)) = true := by
  induction l with
  | nil => simp [firstMatch] at h
  | cons p rest ih =>
    obtain ⟨k, w⟩ := p
    by_cases hm : substrB k t
    · refine ⟨0, by simp, ?_, by simpa using hm, by simp⟩
      simp only [firstMatch, hm, if_true, Option.some.injEq] at h
      simpa using h
    · simp only [firstMatch, hm, if_false] at h
      obtain ⟨j, hj, h1, h2, h3⟩ := ih h
      refine ⟨j + 1, by simpa using hj, by simpa using h1, by simpa using h2, ?_⟩
      simp [List.take_succ_cons, h3, eq_false_of_ne_true hm]

theorem substrB_of_contained {k k' t : String} (hsub : k'.data <:+: k.data)
    (h : substrB k t = true) : substrB k' t = true := by
  simp only [substrB, decide_eq_true_eq] at *
  exact hsub.trans h

/-- C1: classification returns the canonical item of the first keyword in
table order whose text is contained in the lower-cased tag name; earlier
non-matching keywords are certified and later keywords are never consulted,
and a tag name containing no keyword classifies to `none`. -/
theorem classify_first_keyword_wins (tag : String) :
    (classify tag = none ↔
      ∀ p ∈ INCOME_STATEMENT_MAP, substrB p.1 (lowerStr tag) = false) ∧
    (∀ (i : ℕ) (hi : i < INCOME_STATEMENT_MAP.length),
      substrB (INCOME_STATEMENT_MAP.get ⟨i, hi⟩).1 (lowerStr tag) = true →
      (INCOME_STATEMENT_MAP.take i).all (fun p => !(substrB p.1 (lowerStr tag))) = true →
      classify tag = some (INCOME_STATEMENT_MAP.get ⟨i, hi⟩).2) :=
  ⟨firstMatch_eq_none_iff (lowerStr tag) INCOME_STATEMENT_MAP,
   fun i hi hm hb => firstMatch_eq_some_of (lowerStr tag) INCOME_STATEMENT_MAP i hi hm hb⟩

/-- Witness for C1: the tag name `CostOfRevenue` contains both `costofrevenue`
(a COGS keyword) and `revenue` (a Revenue keyword); the table-order rule picks
`revenue`, which comes first, so the tag classifies as `매출액`. -/
theorem classify_first_keyword_wins_w : classify "CostOfRevenue" = some "매출액" :=
  (classify_first_keyword_wins "CostOfRevenue").2 1 (by decide) (by decide) (by decide)

/-- C10: classification can never return `영업외수익` (NonOperatingIncome):
its only keyword `nonoperatingincome` contains the earlier keyword
`operatingincome` as a substring, so the first-match scan always stops at or
before `operatingincome` for any tag the `nonoperatingincome` entry would
match. -/
theorem classify_nonoperating_income_unreachable :
    (∀ tag : String, (classify tag == some "영업외수익") = false) ∧
    substrB "operatingincome" "nonoperatingincome" = true := by
  constructor
  · intro tag
    rw [beq_eq_false_iff_ne]
    intro h
    obtain ⟨i, hi, hv, hm, hb⟩ :=
      firstMatch_eq_some_elim (lowerStr tag) INCOME_STATEMENT_MAP _ h
    have hi22 : i < 22 := by simpa [INCOME_STATEMENT_MAP] using hi
    interval_cases i <;> try exact absurd hv (of_decide_eq_false rfl)
    have hm' : substrB "nonoperatingincome" (lowerStr tag) = true := hm
    have hop : substrB "operatingincome" (lowerStr tag) = true :=
      substrB_of_contained (by decide) hm'
    have hmem : ("operatingincome", "영업이익") ∈ INCOME_STATEMENT_MAP.take 18 := by decide
    have hfalse := List.all_eq_true.mp hb _ hmem
    rw [hop] at hfalse
    exact absurd hfalse (by decide)
  · decide

/-- C2: within one entity's extraction, a fact whose `(item, value)` pair was
already seen is ignored; when a different value (of different magnitude)
arrives for an item that already holds a value, the value of greater absolute
magnitude is kept with its own sign; for values `700` then `-1200` on one
item, the resolved value is `-1200`. -/
theorem extract_dedup_max_abs :
    (∀ (st : ExtractState) (f : String × ℚ), f ∈ st.seen → extractStep st f = st) ∧
    (∀ (st : ExtractState) (item : String) (v1 v2 : ℚ),
      aget st.items item = some v1 → (item, v2) ∉ st.seen → |v1| ≠ |v2| →
      ∃ w, aget (extractStep st (item, v2)).items item = some w ∧
        |w| = max |v1| |v2| ∧ (w = v1 ∨ w = v2)) ∧
    extractFacts [("x", 700), ("x", -1200)] = [("x", -1200)] := by
  refine ⟨?_, ?_, by decide⟩
  · intro st f hf
    simp [extractStep, hf]
  · intro st item v1 v2 h1 h2 h3
    by_cases hgt : |v2| > |v1|
    · exact ⟨v2, by simp [extractStep, h2, h1, hgt, aget_aset_self],
        (max_eq_right (le_of_lt hgt)).symm, Or.inr rfl⟩
    · exact ⟨v1, by simp [extractStep, h2, h1, hgt, h1],
        (max_eq_left (le_of_not_lt hgt)).symm, Or.inl rfl⟩

/-- Witness for C2: an exact repeat of `("x", 700)` leaves the state unchanged,
and a conflicting `-1200` on an item holding `700` resolves to the value of
greater magnitude. -/
theorem extract_dedup_max_abs_w :
    extractStep ⟨[("x", 700)], [("x", 700)]⟩ ("x", 700) = ⟨[("x", 700)], [("x", 700)]⟩ ∧
    ∃ w, aget (extractStep ⟨[("x", 700)], [("x", 700)]⟩ ("x", -1200)).items "x" = some w ∧
      |w| = max |(700 : ℚ)| |(-1200 : ℚ)| ∧ (w = 700 ∨ w = -1200) :=
  ⟨extract_dedup_max_abs.1 _ _ (by decide),
   extract_dedup_max_abs.2.1 _ "x" 700 (-1200) (by decide) (by decide) (by decide)⟩

theorem updateData_nil (data : List (String × ℚ)) : updateData data [] = data := rfl

theorem updateData_cons (data : List (String × ℚ)) (p : String × ℚ)
    (cs : List (String × ℚ)) :
    updateData data (p :: cs) = updateData (aset data p.1 p.2) cs := rfl

theorem updateData_append (data c1 c2 : List (String × ℚ)) :
    updateData data (c1 ++ c2) = updateData (updateData data c1) c2 := by
  simp [updateData, List.foldl_append]

theorem aget_updateData_of_ne (calcd : List (String × ℚ)) :
    ∀ (data : List (String × ℚ)) (k : String), (∀ p ∈ calcd, p.1 ≠ k) →
      aget (updateData data calcd) k = aget data k := by
  induction calcd with
  | nil => intro data k _; rfl
  | cons p cs ih =>
    intro data k h
    rw [updateData_cons]
    rw [ih _ k fun q hq => h q (List.mem_cons_of_mem _ hq)]
    exact aget_aset_ne data _ (h p (by simp))

theorem cdi_keys (data : List (String × ℚ)) (p : String × ℚ)
    (h : p ∈ calculate_derived_items data) :
    p.1 = "매출총이익" ∨ p.1 = "매출원가" ∨ p.1 = "판관비" := by
  obtain ⟨a, b⟩ := p
  unfold calculate_derived_items at h
  split_ifs at h <;> simp_all <;> tauto

theorem cdi_cogs (data : List (String × ℚ)) (v : ℚ)
    (h : ("매출원가", v) ∈ calculate_derived_items data) :
    amem data "매출원가" = false := by
  unfold calculate_derived_items at h
  split_ifs at h <;> simp_all

theorem cdi_gp (data : List (String × ℚ)) (v : ℚ)
    (h : ("매출총이익", v) ∈ calculate_derived_items data) :
    (amem data "매출액" = true ∧ amem data "매출원가" = true) ∨
      amem data "매출총이익" = false := by
  unfold calculate_derived_items at h
  split_ifs at h <;> simp_all

theorem cdi_sga (data : List (String × ℚ)) (v : ℚ)
    (h : ("판관비", v) ∈ calculate_derived_items data) :
    amem data "판매비" = true ∧ amem data "관리비" = true := by
  unfold calculate_derived_items at h
  split_ifs at h <;> simp_all

theorem derive_gp_overwrite (data : List (String × ℚ))
    (hR : amem data "매출액" = true) (hC : amem data "매출원가" = true) :
    aget (derive data) "매출총이익" =
      some (agetD data "매출액" 0 - agetD data "매출원가" 0) := by
  have h1 : (amem data "매출액" && amem data "매출원가") = true := by simp [hR, hC]
  by_cases hS : (amem data "판매비" && amem data "관리비") = true
  · simp only [derive, calculate_derived_items, h1, hS, if_true]
    rw [updateData_append]
    simp only [updateData, List.foldl_cons, List.foldl_nil]
    rw [aget_aset_ne _ _ (by decide), aget_aset_self]
  · simp only [derive, calculate_derived_items, h1, if_true]
    rw [if_neg hS]
    simp only [updateData, List.foldl_cons, List.foldl_nil]
    rw [aget_aset_self]

theorem derive_sga_overwrite (data : List (String × ℚ))
    (h1 : amem data "판매비" = true) (h2 : amem data "관리비" = true) :
    aget (derive data) "판관비" =
      some (agetD data "판매비" 0 + agetD data "관리비" 0) := by
  have hS : (amem data "판매비" && amem data "관리비") = true := by simp [h1, h2]
  simp only [derive, calculate_derived_items, hS, if_true]
  rw [updateData_append]
  simp only [updateData, List.foldl_cons, List.foldl_nil]
  rw [aget_aset_self]

/-- C3 (amended): derivation preserves the value of every present item except
`매출총이익`, which is overwritten with Revenue − COGS whenever Revenue and
COGS are both present (even when GrossProfit was already reported), and
`판관비`, which is overwritten with SellingExpense + AdminExpense whenever
both are present; `매출총이익` is preserved when Revenue or COGS is absent,
and `판관비` is preserved when SellingExpense or AdminExpense is absent. -/
theorem derive_preserves_and_overwrites (data : List (String × ℚ)) (item : String)
    (v : ℚ) (hv : aget data item = some v) :
    (item ≠ "매출총이익" → item ≠ "판관비" → aget (derive data) item = some v) ∧
    (item = "매출총이익" → ¬(amem data "매출액" = true ∧ amem data "매출원가" = true) →
      aget (derive data) item = some v) ∧
    (item = "매출총이익" → amem data "매출액" = true → amem data "매출원가" = true →
      aget (derive data) item = some (agetD data "매출액" 0 - agetD data "매출원가" 0)) ∧
    (item = "판관비" → ¬(amem data "판매비" = true ∧ amem data "관리비" = true) →
      aget (derive data) item = some v) ∧
    (item = "판관비" → amem data "판매비" = true → amem data "관리비" = true →
      aget (derive data) item = some (agetD data "판매비" 0 + agetD data "관리비" 0)) := by
  refine ⟨?_, ?_, ?_, ?_, ?_⟩
  · intro hne1 hne2
    rw [derive, aget_updateData_of_ne _ _ _ ?_, hv]
    intro p hp
    rcases cdi_keys data p hp with h | h | h
    · rw [h]; exact Ne.symm hne1
    · rw [h]
      intro heq
      have hp' : ("매출원가", p.2) ∈ calculate_derived_items data := by
        rw [← h, Prod.mk.eta]; exact hp
      have hc := cdi_cogs data p.2 hp'
      rw [← heq] at hv
      simp [amem, hv] at hc
    · rw [h]; exact Ne.symm hne2
  · intro heq hnrc
    subst heq
    rw [derive, aget_updateData_of_ne _ _ _ ?_, hv]
    intro p hp
    rcases cdi_keys data p hp with h | h | h
    · exfalso
      have hp' : ("매출총이익", p.2) ∈ calculate_derived_items data := by
        rw [← h, Prod.mk.eta]; exact hp
      rcases cdi_gp data p.2 hp' with hrc | hgf
      · exact hnrc hrc
      · simp [amem, hv] at hgf
    · rw [h]; decide
    · rw [h]; decide
  · intro heq hR hC
    subst heq
    exact derive_gp_overwrite data hR hC
  · intro heq hnsa
    subst heq
    rw [derive, aget_updateData_of_ne _ _ _ ?_, hv]
    intro p hp
    rcases cdi_keys data p hp with h | h | h
    · rw [h]; decide
    · rw [h]; decide
    · exfalso
      have hp' : ("판관비", p.2) ∈ calculate_derived_items data := by
        rw [← h, Prod.mk.eta]; exact hp
      exact hnsa (cdi_sga data p.2 hp')
  · intro heq hS hA
    subst heq
    exact derive_sga_overwrite data hS hA

/-- Counterexample for C3: with Revenue 1000, COGS 700 and GrossProfit 450 all
present, derivation recomputes GrossProfit as 1000 − 700 = 300, so the
present item does not keep its input value 450. -/
theorem derive_overwrites_grossprofit_cex :
    aget (derive [("매출액", 1000), ("매출원가", 700), ("매출총이익", 450)]) "매출총이익" =
      some 300 ∧ (300 : ℚ) ≠ 450 := by
  constructor
  · simp [derive, calculate_derived_items, updateData, amem, agetD, aget, aset,
      String.reduceEq]
    norm_num
  · norm_num

/-- Witness for C3 (amended): the overwrite clause applied to the concrete
input with Revenue, COGS and GrossProfit all present. -/
theorem derive_preserves_and_overwrites_w :
    aget (derive [("매출액", 1000), ("매출원가", 700), ("매출총이익", 450)]) "매출총이익" =
      some (agetD [("매출액", 1000), ("매출원가", 700), ("매출총이익", 450)] "매출액" 0 -
        agetD [("매출액", 1000), ("매출원가", 700), ("매출총이익", 450)] "매출원가" 0) :=
  (derive_preserves_and_overwrites _ "매출총이익" 450 (by decide)).2.2.1 rfl
    (by decide) (by decide)

theorem all_keys_ne (ks : List String) {l : List (String × ℚ)}
    (hmap : l.map Prod.fst = ks) {k : String}
    (hne : ks.all (fun s => s != k) = true) : ∀ p ∈ l, p.1 ≠ k := by
  intro p hp
  have hmem : p.1 ∈ ks := hmap ▸ List.mem_map_of_mem Prod.fst hp
  simpa using List.all_eq_true.mp hne _ hmem

theorem aget_updateData_last (data c1 : List (String × ℚ)) (k : String) (v : ℚ)
    (c2 : List (String × ℚ)) (h2 : (c2.map Prod.fst).all (fun s => s != k) = true) :
    aget (updateData data (c1 ++ (k, v) :: c2)) k = some v := by
  rw [updateData_append, updateData_cons,
    aget_updateData_of_ne _ _ _ (all_keys_ne (c2.map Prod.fst) rfl h2), aget_aset_self]

theorem cdi_cogs_branch (data : List (String × ℚ)) (v : ℚ)
    (h : ("매출원가", v) ∈ calculate_derived_items data) :
    (amem data "매출액" && !amem data "매출총이익") = true := by
  unfold calculate_derived_items at h
  split_ifs at h <;> simp_all

/-- C4: when Revenue is present and GrossProfit and COGS are both absent, the
fallback derives GrossProfit = Revenue · 0.30 and COGS = Revenue − GrossProfit
(Revenue 1000 yields 300 and 700); when GrossProfit is already present this
fallback derives neither COGS nor GrossProfit. -/
theorem derive_thirty_percent_fallback :
    (∀ (data : List (String × ℚ)) (rev : ℚ),
      aget data "매출액" = some rev → aget data "매출총이익" = none →
      aget data "매출원가" = none →
      aget (derive data) "매출총이익" = some (rev * (3 / 10)) ∧
      aget (derive data) "매출원가" = some (rev - rev * (3 / 10))) ∧
    (∀ (data : List (String × ℚ)) (g : ℚ), aget data "매출총이익" = some g →
      aget (derive data) "매출원가" = aget data "매출원가" ∧
      (aget data "매출원가" = none → aget (derive data) "매출총이익" = some g)) ∧
    aget (derive [("매출액", 1000)]) "매출총이익" = some 300 ∧
    aget (derive [("매출액", 1000)]) "매출원가" = some 700 ∧
    aget (derive [("매출액", 1000), ("매출총이익", 450)]) "매출원가" = none ∧
    aget (derive [("매출액", 1000), ("매출총이익", 450)]) "매출총이익" = some 450 := by
  refine ⟨?_, ?_, ?_, ?_, ?_, ?_⟩
  · intro data rev h1 h2 h3
    have hR : amem data "매출액" = true := by simp [amem, h1]
    have hC : amem data "매출원가" = false := by simp [amem, h3]
    have hG : amem data "매출총이익" = false := by simp [amem, h2]
    have hrev : agetD data "매출액" 0 = rev := by simp [agetD, h1]
    have hb1 : (amem data "매출액" && amem data "매출원가") = false := by simp [hR, hC]
    have hb2 : (amem data "매출액" && !amem data "매출총이익") = true := by simp [hR, hG]
    by_cases hS : (amem data "판매비" && amem data "관리비") = true
    · have hcd : calculate_derived_items data =
          [("매출총이익", rev * (3 / 10)), ("매출원가", rev - rev * (3 / 10)),
           ("판관비", agetD data "판매비" 0 + agetD data "관리비" 0)] := by
        simp [calculate_derived_items, hb1, hb2, hS, hrev]
      rw [derive, hcd]
      constructor
      · exact aget_updateData_last data [] "매출총이익" (rev * (3 / 10))
          [("매출원가", rev - rev * (3 / 10)),
           ("판관비", agetD data "판매비" 0 + agetD data "관리비" 0)]
          (by simp [String.reduceEq])
      · exact aget_updateData_last data [("매출총이익", rev * (3 / 10))] "매출원가"
          (rev - rev * (3 / 10))
          [("판관비", agetD data "판매비" 0 + agetD data "관리비" 0)]
          (by simp [String.reduceEq])
    · have hcd : calculate_derived_items data =
          [("매출총이익", rev * (3 / 10)), ("매출원가", rev - rev * (3 / 10))] := by
        simp only [calculate_derived_items, hb1, hb2, Bool.false_eq_true, if_false, if_true]
        rw [if_neg hS]
        simp [hrev]
      rw [derive, hcd]
      constructor
      · exact aget_updateData_last data [] "매출총이익" (rev * (3 / 10))
          [("매출원가", rev - rev * (3 / 10))]
          (by simp [String.reduceEq])
      · exact aget_updateData_last data [("매출총이익", rev * (3 / 10))] "매출원가"
          (rev - rev * (3 / 10)) [] (by simp [String.reduceEq])
  · intro data g hg
    have hG : amem data "매출총이익" = true := by simp [amem, hg]
    have hb2 : (amem data "매출액" && !amem data "매출총이익") = false := by simp [hG]
    constructor
    · rw [derive, aget_updateData_of_ne _ _ _ ?_]
      intro p hp
      rcases cdi_keys data p hp with h | h | h
      · rw [h]; decide
      · exfalso
        have hp' : ("매출원가", p.2) ∈ calculate_derived_items data := by
          rw [← h, Prod.mk.eta]; exact hp
        have hb := cdi_cogs_branch data p.2 hp'
        rw [hb2] at hb
        exact absurd hb (by decide)
      · rw [h]; decide
    · intro hcn
      have hC : amem data "매출원가" = false := by simp [amem, hcn]
      rw [derive, aget_updateData_of_ne _ _ _ ?_, hg]
      intro p hp
      rcases cdi_keys data p hp with h | h | h
      · exfalso
        have hp' : ("매출총이익", p.2) ∈ calculate_derived_items data := by
          rw [← h, Prod.mk.eta]; exact hp
        rcases cdi_gp data p.2 hp' with hrc | hgf
        · rw [hC] at hrc
          exact absurd hrc.2 (by decide)
        · rw [hG] at hgf
          exact absurd hgf (by decide)
      · rw [h]; decide
      · rw [h]; decide
  · simp [derive, calculate_derived_items, updateData, amem, agetD, aget, aset,
      String.reduceEq]
    norm_num
  · simp [derive, calculate_derived_items, updateData, amem, agetD, aget, aset,
      String.reduceEq]
    norm_num
  · simp [derive, calculate_derived_items, updateData, amem, agetD, aget, aset,
      String.reduceEq]
  · simp [derive, calculate_derived_items, updateData, amem, agetD, aget, aset,
      String.reduceEq]

/-- Witness for C4: the fallback clauses applied at the two concrete inputs
from the specification examples. -/
theorem derive_thirty_percent_fallback_w :
    (aget (derive [("매출액", 1000)]) "매출총이익" = some (1000 * (3 / 10)) ∧
      aget (derive [("매출액", 1000)]) "매출원가" = some (1000 - 1000 * (3 / 10))) ∧
    (aget (derive [("매출액", 1000), ("매출총이익", 450)]) "매출원가" =
        aget ([("매출액", 1000), ("매출총이익", 450)] : List (String × ℚ)) "매출원가" ∧
      (aget ([("매출액", 1000), ("매출총이익", 450)] : List (String × ℚ)) "매출원가" = none →
        aget (derive [("매출액", 1000), ("매출총이익", 450)]) "매출총이익" = some 450)) :=
  ⟨derive_thirty_percent_fallback.1 [("매출액", 1000)] 1000 rfl (by decide) (by decide),
   derive_thirty_percent_fallback.2.1 [("매출액", 1000), ("매출총이익", 450)] 450 (by decide)⟩

/-- C5: the ratio computation returns the empty mapping whenever Revenue is
absent or not positive; when Revenue > 0, each of the four ratios is present
exactly when its numerator item is present, with value numerator / Revenue ·
100; Revenue 1000 with OperatingIncome 100 yields OperatingMargin 10, and
Revenue 0 yields no ratios. -/
theorem calculate_ratios_spec :
    (∀ data : List (String × ℚ), aget data "매출액" = none →
      calculate_ratios data = []) ∧
    (∀ data : List (String × ℚ), agetD data "매출액" 0 ≤ 0 →
      calculate_ratios data = []) ∧
    (∀ data : List (String × ℚ), 0 < agetD data "매출액" 0 →
      aget (calculate_ratios data) "영업이익률(%)" =
        (aget data "영업이익").map (fun x => x / agetD data "매출액" 0 * 100) ∧
      aget (calculate_ratios data) "순이익률(%)" =
        (aget data "당기순이익").map (fun x => x / agetD data "매출액" 0 * 100) ∧
      aget (calculate_ratios data) "매출원가율(%)" =
        (aget data "매출원가").map (fun x => x / agetD data "매출액" 0 * 100) ∧
      aget (calculate_ratios data) "판관비율(%)" =
        (aget data "판관비").map (fun x => x / agetD data "매출액" 0 * 100)) ∧
    calculate_ratios [("매출액", 1000), ("영업이익", 100)] = [("영업이익률(%)", 10)] ∧
    calculate_ratios [("매출액", 0), ("영업이익", 100)] = [] := by
  refine ⟨?_, ?_, ?_, ?_, ?_⟩
  · intro data h
    have h0 : agetD data "매출액" 0 = 0 := by simp [agetD, h]
    simp [calculate_ratios, h0]
  · intro data h
    simp [calculate_ratios, not_lt.mpr h]
  · intro data hrev
    have hrev' : 0 < (aget data "매출액").getD 0 := hrev
    rcases hx1 : aget data "영업이익" with _ | x1 <;>
    rcases hx2 : aget data "당기순이익" with _ | x2 <;>
    rcases hx3 : aget data "매출원가" with _ | x3 <;>
    rcases hx4 : aget data "판관비" with _ | x4 <;>
      refine ⟨?_, ?_, ?_, ?_⟩ <;>
      simp [calculate_ratios, amem, agetD, hrev, hrev', hx1, hx2, hx3, hx4,
        String.reduceEq, aget]
  · simp +decide [calculate_ratios, amem, agetD, aget, String.reduceEq]
    norm_num
  · simp +decide [calculate_ratios, amem, agetD, aget, String.reduceEq]

/-- Witness for C5: the empty-result clauses at maps lacking Revenue or with
non-positive Revenue, and the ratio-value clause at Revenue 1000 with
OperatingIncome 100. -/
theorem calculate_ratios_spec_w :
    calculate_ratios [("영업이익", 100)] = [] ∧
    calculate_ratios [("매출액", -5)] = [] ∧
    (aget (calculate_ratios [("매출액", 1000), ("영업이익", 100)]) "영업이익률(%)" =
      (aget ([("매출액", 1000), ("영업이익", 100)] : List (String × ℚ)) "영업이익").map
        (fun x => x / agetD [("매출액", 1000), ("영업이익", 100)] "매출액" 0 * 100) ∧
    aget (calculate_ratios [("매출액", 1000), ("영업이익", 100)]) "순이익률(%)" =
      (aget ([("매출액", 1000), ("영업이익", 100)] : List (String × ℚ)) "당기순이익").map
        (fun x => x / agetD [("매출액", 1000), ("영업이익", 100)] "매출액" 0 * 100) ∧
    aget (calculate_ratios [("매출액", 1000), ("영업이익", 100)]) "매출원가율(%)" =
      (aget ([("매출액", 1000), ("영업이익", 100)] : List (String × ℚ)) "매출원가").map
        (fun x => x / agetD [("매출액", 1000), ("영업이익", 100)] "매출액" 0 * 100) ∧
    aget (calculate_ratios [("매출액", 1000), ("영업이익", 100)]) "판관비율(%)" =
      (aget ([("매출액", 1000), ("영업이익", 100)] : List (String × ℚ)) "판관비").map
        (fun x => x / agetD [("매출액", 1000), ("영업이익", 100)] "매출액" 0 * 100)) :=
  ⟨calculate_ratios_spec.1 _ (by decide), calculate_ratios_spec.2.1 _ (by decide),
   calculate_ratios_spec.2.2.1 _ (by decide)⟩

theorem map_fst_filterMap_guard {β : Type} (l : List String) (p : String → Prop)
    [DecidablePred p] (g : String → β) :
    (l.filterMap (fun it => if p it then some (it, g it) else none)).map Prod.fst =
      l.filter (fun it => decide (p it)) := by
  induction l with
  | nil => rfl
  | cons a rest ih =>
    by_cases h : p a <;> simp [h, ih]

theorem ratio_keys (data : List (String × ℚ)) (p : String × ℚ)
    (h : p ∈ calculate_ratios data) :
    p.1 = "영업이익률(%)" ∨ p.1 = "순이익률(%)" ∨ p.1 = "매출원가율(%)" ∨
      p.1 = "판관비율(%)" := by
  obtain ⟨a, b⟩ := p
  unfold calculate_ratios at h
  split_ifs at h <;> simp_all <;> tauto

/-- C6: the built statement has one line-item row per standard item whose
post-derivation value is non-zero (a zero value is dropped exactly like an
absent one), the line items appear in the fixed `standard_items` order, and
all ratio rows come after all line-item rows. -/
theorem income_statement_rows_spec (data0 : List (String × ℚ)) (company : String) :
    (create_income_statement data0 company).rows.map Prod.fst =
      standard_items.filter (fun it => decide (agetD (derive data0) it 0 ≠ 0)) ++
        (calculate_ratios (derive data0)).map Prod.fst ∧
    ∀ it ∈ standard_items,
      (it ∈ (create_income_statement data0 company).rows.map Prod.fst ↔
        agetD (derive data0) it 0 ≠ 0) := by
  have hmain : (create_income_statement data0 company).rows.map Prod.fst =
      standard_items.filter (fun it => decide (agetD (derive data0) it 0 ≠ 0)) ++
        (calculate_ratios (derive data0)).map Prod.fst := by
    simp only [create_income_statement, List.map_append, List.map_map]
    congr 1
    exact map_fst_filterMap_guard standard_items _ _
  refine ⟨hmain, ?_⟩
  intro it hit
  rw [hmain, List.mem_append]
  constructor
  · intro h
    rcases h with h | h
    · exact of_decide_eq_true (List.mem_filter.mp h).2
    · exfalso
      obtain ⟨rv, hrv, hEq⟩ := List.mem_map.mp h
      rcases ratio_keys _ rv hrv with h' | h' | h' | h' <;> rw [hEq] at h' <;>
        rw [h'] at hit <;> exact absurd hit (by decide)
  · intro h
    exact Or.inl (List.mem_filter.mpr ⟨hit, decide_eq_true h⟩)

/-- Witness for C6: OperatingIncome reported with value 0 is suppressed from
the statement exactly when its post-derivation value is zero. -/
theorem income_statement_rows_spec_w :
    "영업이익" ∈
        (create_income_statement [("매출액", 1000), ("영업이익", 0)] "A").rows.map
          Prod.fst ↔
      agetD (derive [("매출액", 1000), ("영업이익", 0)]) "영업이익" 0 ≠ 0 :=
  (income_statement_rows_spec [("매출액", 1000), ("영업이익", 0)] "A").2 "영업이익"
    (by decide)

theorem aget_some_mem {α : Type} {m : List (String × α)} {k : String} {v : α}
    (h : aget m k = some v) : (k, v) ∈ m := by
  induction m with
  | nil => simp [aget] at h
  | cons p rest ih =>
    obtain ⟨k', v'⟩ := p
    by_cases h2 : k' = k
    · subst h2
      simp [aget] at h
      simp [h]
    · simp only [aget, h2, if_false] at h
      exact List.mem_cons_of_mem _ (ih h)

theorem aget_map_keyed {α : Type} (keys : List String) (g : String → α) (k : String)
    (h : k ∈ keys) : aget (keys.map fun x => (x, g x)) k = some (g k) := by
  induction keys with
  | nil => simp at h
  | cons y ys ih =>
    by_cases hy : y = k
    · subst hy
      simp [aget]
    · rcases List.mem_cons.mp h with h1 | h1
      · exact absurd h1.symm hy
      · simp only [List.map_cons, aget, hy, if_false]
        exact ih h1

theorem aget_map_val {α β : Type} (m : List (String × α)) (f : α → β) (k : String) :
    aget (m.map fun cv => (cv.1, f cv.2)) k = (aget m k).map f := by
  induction m with
  | nil => simp [aget]
  | cons p rest ih =>
    obtain ⟨k', v'⟩ := p
    by_cases h : k' = k <;> simp [aget, h, ih]

theorem mem_insStr (a x : String) (l : List String) :
    a ∈ insStr x l ↔ a = x ∨ a ∈ l := by
  induction l with
  | nil => simp [insStr]
  | cons y ys ih =>
    cases h : strLtL y.data x.data
    · simp [insStr, h]
    · simp [insStr, h, ih]
      tauto

theorem mem_sortStr (a : String) (l : List String) : a ∈ sortStr l ↔ a ∈ l := by
  induction l with
  | nil => simp [sortStr]
  | cons y ys ih =>
    have : sortStr (y :: ys) = insStr y (sortStr ys) := rfl
    rw [this, mem_insStr]
    simp [ih]

theorem mem_joinOuterKeys (k : String) (L R : List String) :
    k ∈ joinOuterKeys L R ↔ k ∈ L ∨ k ∈ R := by
  unfold joinOuterKeys
  split_ifs with hR hL hLR
  · simp [hR]
  · simp [hL]
  · rw [hLR]; simp
  · rw [mem_sortStr]
    simp only [List.mem_append, List.mem_filter, Bool.not_eq_true']
    constructor
    · intro h
      rcases h with h | h
      · exact Or.inl h
      · exact Or.inr h.1
    · intro h
      rcases h with h | h
      · exact Or.inl h
      · by_cases hkL : k ∈ L
        · exact Or.inl hkL
        · refine Or.inr ⟨h, ?_⟩
          simpa using hkL

theorem seriesOf_keys (df : DF) (ccol : String) :
    (seriesOf df ccol).map Prod.fst = df.rows.map Prod.fst := by
  simp [seriesOf]

theorem joinSeries_keys (m : DF) (ccol : String) (s : List (String × Cell)) :
    (joinSeries m ccol s).rows.map Prod.fst =
      joinOuterKeys (m.rows.map Prod.fst) (s.map Prod.fst) := by
  simp only [joinSeries, List.map_map]
  exact List.map_id _

theorem fillna_keys (m : DF) :
    (fillnaDF m).rows.map Prod.fst = m.rows.map Prod.fst := by
  simp [fillnaDF]

theorem fillna_cols (m : DF) : (fillnaDF m).cols = m.cols := rfl

theorem cellAt_fillna (m : DF) (k c : String) (cs : List (String × Cell)) (cell : Cell)
    (hrow : aget m.rows k = some cs) (hcell : aget cs c = some cell) :
    cellAt (fillnaDF m) k c = fillCell cell := by
  unfold cellAt fillnaDF
  simp only []
  rw [aget_map_val, hrow]
  simp [aget_map_val, hcell]

theorem aget_joinSeries (m : DF) (ccol : String) (s : List (String × Cell)) (k : String)
    (hk : k ∈ joinOuterKeys (m.rows.map Prod.fst) (s.map Prod.fst)) :
    aget (joinSeries m ccol s).rows k = some
      ((match aget m.rows k with
        | some cs => cs
        | none => m.cols.map fun c => (c, Cell.na)) ++
          [(ccol, (aget s k).getD Cell.na)]) := by
  unfold joinSeries
  exact aget_map_keyed _ _ k hk

/-- The merge of entity A with Revenue and COGS rows only, as in the merge
example of the specification. -/
def exampleA : DF :=
  ⟨["A", "A_원시값"],
   [("매출액", [("A", Cell.fmtAmount 1000), ("A_원시값", Cell.num 1000)]),
    ("매출원가", [("A", Cell.fmtAmount 700), ("A_원시값", Cell.num 700)])]⟩

/-- Entity B with Revenue and NetIncome rows only. -/
def exampleB : DF :=
  ⟨["B", "B_원시값"],
   [("매출액", [("B", Cell.fmtAmount 2000), ("B_원시값", Cell.num 2000)]),
    ("당기순이익", [("B", Cell.fmtAmount 80), ("B_원시값", Cell.num 80)])]⟩

/-- Counterexample for C7: merging A = {Revenue, COGS} with B = {Revenue,
NetIncome} does not keep A's row order with B's new item appended; the pandas
outer join sorts the union of the keys by code point, yielding
[NetIncome, Revenue, COGS]. -/
theorem merge_row_order_cex :
    (merge_company_data [exampleA, exampleB]).rows.map Prod.fst =
      ["당기순이익", "매출액", "매출원가"] ∧
    ["당기순이익", "매출액", "매출원가"] ≠ ["매출액", "매출원가", "당기순이익"] := by
  constructor <;> decide

/-- One step of the merge loop of `merge_company_data`: join every
non-`_원시값` column of the next frame onto the accumulated frame (the body of
the loop at source lines 262-268). -/
def mergeStep (m df : DF) : DF :=
  (df.cols.filter fun c => !(isRawCol c)).foldl
    (fun m2 ccol => joinSeries m2 ccol (seriesOf df ccol)) m

theorem merge_company_data_eq_fold (A : DF) (rest : List DF) :
    merge_company_data (A :: rest) = fillnaDF (rest.foldl mergeStep A) := rfl

theorem mergeStep_eq (m df : DF) (n : String)
    (hdf : df.cols.filter (fun c => !(isRawCol c)) = [n]) :
    mergeStep m df = joinSeries m n (seriesOf df n) := by
  unfold mergeStep
  rw [hdf]
  rfl

/-- Cell of a frame before `fillna`, as an `Option` (`none` when the row or
column does not exist). -/
def rawCell (m : DF) (k c : String) : Option Cell :=
  (aget m.rows k).bind fun cs => aget cs c

theorem rawCell_eq_of_row {m : DF} {k : String} {cs : List (String × Cell)}
    (hrow : aget m.rows k = some cs) (c : String) :
    rawCell m k c = aget cs c := by
  unfold rawCell
  rw [hrow]
  rfl

theorem cellAt_fillna_raw (m : DF) (k c : String) (cell : Cell)
    (h : rawCell m k c = some cell) :
    cellAt (fillnaDF m) k c = fillCell cell := by
  unfold rawCell at h
  rcases hrow : aget m.rows k with _ | cs
  · rw [hrow] at h
    simp at h
  · rw [hrow] at h
    exact cellAt_fillna m k c cs cell hrow h

theorem aget_exists_of_mem {α : Type} (m : List (String × α)) (k : String)
    (h : k ∈ m.map Prod.fst) : ∃ v, aget m k = some v := by
  have hsome := (aget_isSome_iff m k).mpr h
  rcases hx : aget m k with _ | v
  · rw [hx] at hsome; simp at hsome
  · exact ⟨v, rfl⟩

theorem joinSeries_cols (m : DF) (ccol : String) (s : List (String × Cell)) :
    (joinSeries m ccol s).cols = m.cols ++ [ccol] := rfl

theorem map_fst_map_const_na (cols : List String) :
    (cols.map fun c => (c, Cell.na)).map Prod.fst = cols := by
  rw [List.map_map]
  exact List.map_id _

theorem joinSeries_wf (m : DF) (ccol : String) (s : List (String × Cell))
    (hwf : ∀ r ∈ m.rows, r.2.map Prod.fst = m.cols) :
    ∀ r ∈ (joinSeries m ccol s).rows,
      r.2.map Prod.fst = (joinSeries m ccol s).cols := by
  intro r hr
  rw [joinSeries_cols]
  unfold joinSeries at hr
  obtain ⟨k, hk, hkr⟩ := List.mem_map.mp hr
  rw [← hkr]
  simp only [List.map_append]
  rcases hrow : aget m.rows k with _ | cs
  · rw [map_fst_map_const_na]
    simp
  · simp [hwf (k, cs) (aget_some_mem hrow)]

theorem rawCell_joinSeries_preserve (m : DF) (ccol : String) (s : List (String × Cell))
    (k c : String) (hk : k ∈ m.rows.map Prod.fst) (hc : c ≠ ccol) :
    rawCell (joinSeries m ccol s) k c = rawCell m k c := by
  obtain ⟨cs0, hcs0⟩ := aget_exists_of_mem m.rows k hk
  have hkJ : k ∈ joinOuterKeys (m.rows.map Prod.fst) (s.map Prod.fst) :=
    (mem_joinOuterKeys k _ _).mpr (Or.inl hk)
  have hrowJ : aget (joinSeries m ccol s).rows k =
      some (cs0 ++ [(ccol, (aget s k).getD Cell.na)]) := by
    rw [aget_joinSeries m ccol s k hkJ, hcs0]
  rw [rawCell_eq_of_row hrowJ c, rawCell_eq_of_row hcs0 c]
  rcases hcc : aget cs0 c with _ | v
  · rw [aget_append_of_none _ _ _ hcc]
    simp [aget, Ne.symm hc]
  · rw [aget_append_of_some _ hcc]

theorem rawCell_joinSeries_new (m : DF) (ccol : String) (s : List (String × Cell))
    (k : String) (hkJ : k ∈ (joinSeries m ccol s).rows.map Prod.fst)
    (hk : k ∉ m.rows.map Prod.fst) :
    ∀ c ∈ m.cols, rawCell (joinSeries m ccol s) k c = some Cell.na := by
  intro c hc
  have hnone : aget m.rows k = none := (aget_eq_none_iff _ _).mpr hk
  rw [joinSeries_keys] at hkJ
  have hrowJ : aget (joinSeries m ccol s).rows k =
      some ((m.cols.map fun c' => (c', Cell.na)) ++ [(ccol, (aget s k).getD Cell.na)]) := by
    rw [aget_joinSeries m ccol s k hkJ, hnone]
  rw [rawCell_eq_of_row hrowJ c]
  exact aget_append_of_some _ (aget_map_keyed m.cols (fun _ => Cell.na) c hc)

theorem rawCell_joinSeries_newcol (m : DF) (ccol : String) (s : List (String × Cell))
    (hwf : ∀ r ∈ m.rows, r.2.map Prod.fst = m.cols) (hn : ccol ∉ m.cols)
    (k : String) (hkJ : k ∈ (joinSeries m ccol s).rows.map Prod.fst) :
    rawCell (joinSeries m ccol s) k ccol = some ((aget s k).getD Cell.na) := by
  rw [joinSeries_keys] at hkJ
  rcases hrowm : aget m.rows k with _ | cs
  · have hrowJ : aget (joinSeries m ccol s).rows k =
        some ((m.cols.map fun c' => (c', Cell.na)) ++ [(ccol, (aget s k).getD Cell.na)]) := by
      rw [aget_joinSeries m ccol s k hkJ, hrowm]
    rw [rawCell_eq_of_row hrowJ ccol, aget_append_of_none]
    · simp [aget]
    · rw [aget_eq_none_iff, map_fst_map_const_na]
      exact hn
  · have hrowJ : aget (joinSeries m ccol s).rows k =
        some (cs ++ [(ccol, (aget s k).getD Cell.na)]) := by
      rw [aget_joinSeries m ccol s k hkJ, hrowm]
    rw [rawCell_eq_of_row hrowJ ccol, aget_append_of_none]
    · simp [aget]
    · rw [aget_eq_none_iff, hwf (k, cs) (aget_some_mem hrowm)]
      exact hn

theorem mem_foldl_joinOuterKeys (rest : List DF) :
    ∀ (ks : List String) (k : String),
      (k ∈ rest.foldl (fun ks2 df => joinOuterKeys ks2 (df.rows.map Prod.fst)) ks ↔
        k ∈ ks ∨ ∃ df ∈ rest, k ∈ df.rows.map Prod.fst) := by
  induction rest with
  | nil =>
    intro ks k
    simp
  | cons d ds ih =>
    intro ks k
    rw [List.foldl_cons, ih, mem_joinOuterKeys]
    constructor
    · rintro ((h | h) | ⟨df, hdf, h⟩)
      · exact Or.inl h
      · exact Or.inr ⟨d, by simp, h⟩
      · exact Or.inr ⟨df, by simp [hdf], h⟩
    · rintro (h | ⟨df, hdf, h⟩)
      · exact Or.inl (Or.inl h)
      · rcases List.mem_cons.mp hdf with rfl | hdf'
        · exact Or.inl (Or.inr h)
        · exact Or.inr ⟨df, hdf', h⟩

/-- Invariant of the merge fold: starting from a well-formed frame `m` and
joining one single-display-column frame at a time (all display columns fresh),
the accumulated frame keeps `m`'s cells, keys grow by pandas outer joins, rows
keyed outside `m` hold NaN in all of `m`'s columns, and rows keyed outside a
processed frame hold NaN in that frame's display column. -/
theorem merge_fold_invariant (rest : List DF) :
    ∀ m : DF,
      (∀ r ∈ m.rows, r.2.map Prod.fst = m.cols) →
      (∀ df ∈ rest, (df.cols.filter fun c => !(isRawCol c)).length = 1) →
      ((m.cols ++ rest.flatMap fun df => df.cols.filter fun c => !(isRawCol c)).Nodup) →
      (((rest.foldl mergeStep m).cols =
          m.cols ++ rest.flatMap fun df => df.cols.filter fun c => !(isRawCol c)) ∧
      ((rest.foldl mergeStep m).rows.map Prod.fst =
          rest.foldl (fun ks df => joinOuterKeys ks (df.rows.map Prod.fst))
            (m.rows.map Prod.fst)) ∧
      (∀ r ∈ (rest.foldl mergeStep m).rows,
          r.2.map Prod.fst = (rest.foldl mergeStep m).cols) ∧
      (∀ k c, k ∈ m.rows.map Prod.fst → c ∈ m.cols →
          rawCell (rest.foldl mergeStep m) k c = rawCell m k c) ∧
      (∀ k, k ∈ (rest.foldl mergeStep m).rows.map Prod.fst →
          k ∉ m.rows.map Prod.fst →
          ∀ c ∈ m.cols, rawCell (rest.foldl mergeStep m) k c = some Cell.na) ∧
      (∀ df ∈ rest, ∀ n, df.cols.filter (fun c => !(isRawCol c)) = [n] →
          ∀ k, k ∈ (rest.foldl mergeStep m).rows.map Prod.fst →
            k ∉ df.rows.map Prod.fst →
            rawCell (rest.foldl mergeStep m) k n = some Cell.na)) := by
  induction rest with
  | nil =>
    intro m hwf _ _
    refine ⟨by simp, by simp, hwf, fun k c _ _ => rfl, ?_, ?_⟩
    · intro k hk1 hk2
      exact absurd hk1 hk2
    · intro df hdf
      simp at hdf
  | cons d ds ih =>
    intro m hwf hshape hnodup
    obtain ⟨n, hn⟩ : ∃ n, d.cols.filter (fun c => !(isRawCol c)) = [n] := by
      have h1 := hshape d (by simp)
      rcases hL : d.cols.filter (fun c => !(isRawCol c)) with _ | ⟨x, xs⟩
      · rw [hL] at h1; simp at h1
      · rw [hL] at h1
        simp at h1
        exact ⟨x, by rw [h1]⟩
    have hflat : ((d :: ds).flatMap fun df => df.cols.filter fun c => !(isRawCol c)) =
        [n] ++ ds.flatMap fun df => df.cols.filter fun c => !(isRawCol c) := by
      simp [hn]
    rw [hflat] at hnodup
    have hnodup2 : (((m.cols ++ [n]) ++
        ds.flatMap fun df => df.cols.filter fun c => !(isRawCol c))).Nodup := by
      rw [List.append_assoc]
      exact hnodup
    have hnmem : n ∉ m.cols := by
      intro hmem
      rcases List.nodup_append.mp hnodup with ⟨_, _, hdisj⟩
      exact hdisj hmem (by simp)
    have hm'wf : ∀ r ∈ (joinSeries m n (seriesOf d n)).rows,
        r.2.map Prod.fst = (joinSeries m n (seriesOf d n)).cols :=
      joinSeries_wf m n _ hwf
    have hm'cols : (joinSeries m n (seriesOf d n)).cols = m.cols ++ [n] := rfl
    have hm'keys : (joinSeries m n (seriesOf d n)).rows.map Prod.fst =
        joinOuterKeys (m.rows.map Prod.fst) (d.rows.map Prod.fst) := by
      rw [joinSeries_keys, seriesOf_keys]
    have hkeys_mono : ∀ k, k ∈ m.rows.map Prod.fst →
        k ∈ (joinSeries m n (seriesOf d n)).rows.map Prod.fst := by
      intro k hk
      rw [hm'keys, mem_joinOuterKeys]
      exact Or.inl hk
    have hshape2 : ∀ df ∈ ds, (df.cols.filter fun c => !(isRawCol c)).length = 1 :=
      fun df hdf => hshape df (List.mem_cons_of_mem _ hdf)
    have hnodup3 : ((joinSeries m n (seriesOf d n)).cols ++
        ds.flatMap fun df => df.cols.filter fun c => !(isRawCol c)).Nodup := by
      rw [hm'cols]
      exact hnodup2
    obtain ⟨ih1, ih2, ih3, ih4, ih5, ih6⟩ :=
      ih (joinSeries m n (seriesOf d n)) hm'wf hshape2 hnodup3
    have hfold : (d :: ds).foldl mergeStep m =
        ds.foldl mergeStep (joinSeries m n (seriesOf d n)) := by
      rw [List.foldl_cons, mergeStep_eq m d n hn]
    rw [hfold]
    refine ⟨?_, ?_, ih3, ?_, ?_, ?_⟩
    · rw [ih1, hm'cols, hflat, List.append_assoc]
    · rw [ih2, hm'keys, List.foldl_cons]
    · intro k c hk hc
      have hk2 := hkeys_mono k hk
      have hc2 : c ∈ (joinSeries m n (seriesOf d n)).cols := by
        rw [hm'cols]
        exact List.mem_append_left _ hc
      rw [ih4 k c hk2 hc2]
      exact rawCell_joinSeries_preserve m n _ k c hk fun hEq => hnmem (hEq ▸ hc)
    · intro k hkfin hkm c hc
      have hc2 : c ∈ (joinSeries m n (seriesOf d n)).cols := by
        rw [hm'cols]
        exact List.mem_append_left _ hc
      by_cases hkm2 : k ∈ (joinSeries m n (seriesOf d n)).rows.map Prod.fst
      · rw [ih4 k c hkm2 hc2]
        exact rawCell_joinSeries_new m n _ k hkm2 hkm c hc
      · exact ih5 k hkfin hkm2 c hc2
    · intro df hdf n2 hn2 k hkfin hkdf
      rcases List.mem_cons.mp hdf with hEq | hdf2
      · subst hEq
        have hnn : n2 = n := by
          rw [hn] at hn2
          simpa using hn2.symm
        subst hnn
        have hc2 : n2 ∈ (joinSeries m n2 (seriesOf df n2)).cols := by
          rw [hm'cols]
          simp
        by_cases hkm2 : k ∈ (joinSeries m n2 (seriesOf df n2)).rows.map Prod.fst
        · rw [ih4 k n2 hkm2 hc2]
          have hsn : aget (seriesOf df n2) k = none := by
            rw [aget_eq_none_iff, seriesOf_keys]
            exact hkdf
          rw [rawCell_joinSeries_newcol m n2 (seriesOf df n2) hwf hnmem k hkm2, hsn]
          rfl
        · exact ih5 k hkfin hkm2 n2 hc2
      · exact ih6 df hdf2 n2 hn2 k hkfin hkdf

/-- C7 (amended): for every non-empty sequence of statements, the merge is a
full outer join keyed by canonical item — the merged row keys are exactly the
union of all inputs' row keys, and an entity lacking an item in some row
receives the `"-"` sentinel in that row — but the row order is the pandas
fold of outer joins `joinOuterKeys`: at each join the union of the keys is
sorted by code point whenever the two key sequences differ (the accumulated
order survives only when they are identical). -/
theorem merge_outer_join_spec (A : DF) (rest : List DF)
    (hA : ∀ r ∈ A.rows, r.2.map Prod.fst = A.cols)
    (hshape : ∀ df ∈ rest, (df.cols.filter fun c => !(isRawCol c)).length = 1)
    (hnodup : (A.cols ++ rest.flatMap fun df => df.cols.filter fun c => !(isRawCol c)).Nodup) :
    ((merge_company_data (A :: rest)).rows.map Prod.fst =
      rest.foldl (fun ks df => joinOuterKeys ks (df.rows.map Prod.fst))
        (A.rows.map Prod.fst)) ∧
    (∀ k, k ∈ (merge_company_data (A :: rest)).rows.map Prod.fst ↔
      k ∈ A.rows.map Prod.fst ∨ ∃ df ∈ rest, k ∈ df.rows.map Prod.fst) ∧
    (∀ df ∈ rest, ∀ n, df.cols.filter (fun c => !(isRawCol c)) = [n] →
      ∀ k, k ∈ (merge_company_data (A :: rest)).rows.map Prod.fst →
        k ∉ df.rows.map Prod.fst →
        cellAt (merge_company_data (A :: rest)) k n = Cell.dash) ∧
    (∀ k, k ∈ (merge_company_data (A :: rest)).rows.map Prod.fst →
      k ∉ A.rows.map Prod.fst →
      ∀ c ∈ A.cols, cellAt (merge_company_data (A :: rest)) k c = Cell.dash) := by
  obtain ⟨_, i2, _, _, i5, i6⟩ := merge_fold_invariant rest A hA hshape hnodup
  have hkeys : (merge_company_data (A :: rest)).rows.map Prod.fst =
      rest.foldl (fun ks df => joinOuterKeys ks (df.rows.map Prod.fst))
        (A.rows.map Prod.fst) := by
    rw [merge_company_data_eq_fold, fillna_keys, i2]
  refine ⟨hkeys, ?_, ?_, ?_⟩
  · intro k
    rw [hkeys]
    exact mem_foldl_joinOuterKeys rest _ k
  · intro df hdf n hn k hk hkdf
    have hk2 : k ∈ (rest.foldl mergeStep A).rows.map Prod.fst := by
      rw [merge_company_data_eq_fold, fillna_keys] at hk
      exact hk
    rw [merge_company_data_eq_fold,
      cellAt_fillna_raw _ k n Cell.na (i6 df hdf n hn k hk2 hkdf)]
    simp [fillCell]
  · intro k hk hkA c hc
    have hk2 : k ∈ (rest.foldl mergeStep A).rows.map Prod.fst := by
      rw [merge_company_data_eq_fold, fillna_keys] at hk
      exact hk
    rw [merge_company_data_eq_fold,
      cellAt_fillna_raw _ k c Cell.na (i5 k hk2 hkA c hc)]
    simp [fillCell]

/-- Witness for C7 (amended): in the merged A/B example, B's COGS cell and
A's NetIncome cell both hold the MISSING sentinel. -/
theorem merge_outer_join_spec_w :
    cellAt (merge_company_data [exampleA, exampleB]) "매출원가" "B" = Cell.dash ∧
    cellAt (merge_company_data [exampleA, exampleB]) "당기순이익" "A" = Cell.dash :=
  ⟨(merge_outer_join_spec exampleA [exampleB] (by decide) (by decide)
      (by decide)).2.2.1 exampleB (by decide) "B" (by decide) "매출원가" (by decide)
      (by decide),
   (merge_outer_join_spec exampleA [exampleB] (by decide) (by decide)
      (by decide)).2.2.2 "당기순이익" (by decide) (by decide) "A" (by decide)⟩

theorem foldl_joinSeries_cols (cols : List String) (f : String → List (String × Cell)) :
    ∀ m : DF, ((cols.foldl (fun m2 ccol => joinSeries m2 ccol (f ccol)) m).cols) =
      m.cols ++ cols := by
  induction cols with
  | nil => intro m; simp
  | cons c cs ih =>
    intro m
    rw [List.foldl_cons, ih (joinSeries m c (f c))]
    simp [joinSeries]

theorem foldl_merge_cols (rest : List DF) :
    ∀ m : DF,
      ((rest.foldl
        (fun m df =>
          (df.cols.filter fun c => !(isRawCol c)).foldl
            (fun m2 ccol => joinSeries m2 ccol (seriesOf df ccol)) m) m).cols) =
      m.cols ++ rest.flatMap fun df => df.cols.filter fun c => !(isRawCol c) := by
  induction rest with
  | nil => intro m; simp
  | cons d ds ih =>
    intro m
    rw [List.foldl_cons, ih, foldl_joinSeries_cols]
    simp

/-- C8 (amended): the merged statement keeps the first frame's columns — for a
single statement both its display and its raw-value column — but each later
frame contributes only the columns not ending in `_원시값`; later entities'
raw-value columns are dropped by the merge. -/
theorem merge_cols_spec :
    (∀ (first : DF) (rest : List DF),
      (merge_company_data (first :: rest)).cols =
        first.cols ++ rest.flatMap fun df => df.cols.filter fun c => !(isRawCol c)) ∧
    (∀ (data0 : List (String × ℚ)) (company : String),
      (merge_company_data [create_income_statement data0 company]).cols =
        [company, company ++ "_원시값"]) := by
  constructor
  · intro first rest
    show (fillnaDF _).cols = _
    rw [fillna_cols, foldl_merge_cols]
  · intro data0 company
    rfl

/-- Counterexample for C8: merging two entities keeps entity A's raw-value
column but drops entity B's raw-value column `B_원시값`, so not every input
entity retains a companion raw column. -/
theorem merge_raw_col_dropped_cex :
    (merge_company_data [exampleA, exampleB]).cols = ["A", "A_원시값", "B"] ∧
    "B_원시값" ∈ exampleB.cols ∧
    "B_원시값" ∉ (merge_company_data [exampleA, exampleB]).cols := by
  refine ⟨by decide, by decide, by decide⟩

/-- The statement the pipeline builds from {Revenue 1000, COGS 700}: the two
reported items, the derived GrossProfit 300, and the COGSRatio row 70%. -/
def exampleC : DF :=
  ⟨["A", "A_원시값"],
   [("매출액", [("A", Cell.fmtAmount 1000), ("A_원시값", Cell.num 1000)]),
    ("매출원가", [("A", Cell.fmtAmount 700), ("A_원시값", Cell.num 700)]),
    ("매출총이익", [("A", Cell.fmtAmount 300), ("A_원시값", Cell.num 300)]),
    ("매출원가율(%)", [("A", Cell.fmtPercent 70), ("A_원시값", Cell.num 70)])]⟩

/-- Counterexample for C9: the merged table built from {Revenue 1000, COGS
700} contains a COGSRatio row (`매출원가율(%)`), yet the highlight pass
selects nothing, because `매출원가율(%)` contains neither `이익률` nor
`비율`. -/
theorem highlight_cogs_ratio_cex :
    "매출원가율(%)" ∈ (merge_company_data
        [create_income_statement [("매출액", 1000), ("매출원가", 700)] "A"]).rows.map
        Prod.fst ∧
    highlight_pass (merge_company_data
        [create_income_statement [("매출액", 1000), ("매출원가", 700)] "A"]) = [] := by
  have hstmt : create_income_statement [("매출액", 1000), ("매출원가", 700)] "A" =
      exampleC := by
    simp [create_income_statement, derive, calculate_derived_items, calculate_ratios,
      updateData, amem, agetD, aget, aset, standard_items, exampleC, String.reduceEq]
    norm_num
    simp +decide [String.reduceEq]
  rw [hstmt]
  constructor <;> decide

/-- C9 (amended): the highlight pass selects exactly the merged rows whose key
contains `이익률` or `비율` — which covers the OperatingMargin, NetMargin and
SG&ARatio labels but not the COGSRatio label `매출원가율(%)` — and lists, for
each selected row with at least one value, the cells of all value columns
(the first entity's raw-value cells included) that are neither `"-"` nor NaN. -/
theorem highlight_pass_spec (m : DF) :
    (∀ p ∈ highlight_pass m, ∃ r ∈ m.rows,
      (substrB "이익률" r.1 || substrB "비율" r.1) = true ∧
      p = (r.1, (rowCells m r).filter fun v => v != Cell.dash && v != Cell.na)) ∧
    (∀ r ∈ m.rows, (substrB "이익률" r.1 || substrB "비율" r.1) = true →
      ((rowCells m r).filter fun v => v != Cell.dash && v != Cell.na) ≠ [] →
      (r.1, (rowCells m r).filter fun v => v != Cell.dash && v != Cell.na) ∈
        highlight_pass m) ∧
    (substrB "이익률" "영업이익률(%)" = true ∧ substrB "이익률" "순이익률(%)" = true ∧
      substrB "비율" "판관비율(%)" = true ∧ substrB "이익률" "매출원가율(%)" = false ∧
      substrB "비율" "매출원가율(%)" = false) := by
  refine ⟨?_, ?_, by decide⟩
  · intro p hp
    unfold highlight_pass at hp
    obtain ⟨hp1, _⟩ := List.mem_filter.mp hp
    obtain ⟨r, hr, hEq⟩ := List.mem_map.mp hp1
    obtain ⟨hrm, hcond⟩ := List.mem_filter.mp hr
    exact ⟨r, hrm, hcond, hEq.symm⟩
  · intro r hr hcond hne
    unfold highlight_pass
    refine List.mem_filter.mpr ⟨?_, ?_⟩
    · exact List.mem_map.mpr ⟨r, List.mem_filter.mpr ⟨hr, hcond⟩, rfl⟩
    · simpa using hne

/-- A merged frame holding one OperatingMargin row. -/
def exampleRatioRow : DF :=
  ⟨["A", "A_원시값"],
   [("영업이익률(%)", [("A", Cell.fmtPercent 10), ("A_원시값", Cell.num 10)])]⟩

/-- Witness for C9 (amended): the OperatingMargin row of a merged frame is
selected by the highlight pass together with its non-missing cells. -/
theorem highlight_pass_spec_w :
    ("영업이익률(%)",
      (rowCells exampleRatioRow
        ("영업이익률(%)",
          [("A", Cell.fmtPercent 10), ("A_원시값", Cell.num 10)])).filter
        fun v => v != Cell.dash && v != Cell.na) ∈ highlight_pass exampleRatioRow :=
  (highlight_pass_spec exampleRatioRow).2.1
    ("영업이익률(%)", [("A", Cell.fmtPercent 10), ("A_원시값", Cell.num 10)])
    (by decide) (by decide) (by decide)
